import Mathlib

/-!
# Verification of the sower Trojan transport and dial/sniff front-end

Shallow embedding of `src/transport/trojan/trojan.go` and the dial / HTTP
front-end in `src/unnamed/part_000` (package main).  Go byte strings are
modelled as `List Nat` (each element a byte value); a network connection,
as read by `Unwrap`, is modelled as a list of chunks: one `conn.Read(buf)`
call returns bytes from the first chunk only (at most `buf`'s size), which
is exactly the single-`Read` behaviour the code relies on, while
`io.ReadFull` (used internally by `binary.Read`) accumulates across chunks.
-/

namespace Sower

/-- Byte strings: each element stands for one byte (0..255 in real runs). -/
abbrev Bytes := List Nat

/-- A connection's incoming data, as a sequence of chunks.  Each Go
`conn.Read(buf)` call delivers bytes from the first chunk only. -/
abbrev Stream := List Bytes

/-- Model of one Go `conn.Read(buf)` call with a buffer of size `n`:
returns at most `n` bytes, taken from the first chunk; an exhausted stream
is an EOF error (`none`). -/
def readOnce (s : Stream) (n : Nat) : Option (Bytes × Stream) :=
  match s with
  | [] => none
  | c :: rest => if n < c.length then some (c.take n, c.drop n :: rest) else some (c, rest)

/-- Model of Go `io.ReadFull` (used by `encoding/binary.Read`): keeps
reading chunks until `n` bytes have accumulated; errors if the stream ends
first. -/
def readFull (s : Stream) (n : Nat) : Option (Bytes × Stream) :=
  if n = 0 then some ([], s) else
  match s with
  | [] => none
  | c :: rest =>
    if n < c.length then some (c.take n, c.drop n :: rest)
    else match readFull rest (n - c.length) with
         | some (bs, s2) => some (c ++ bs, s2)
         | none => none

/-- Big-endian 16-bit value from two bytes, as computed by
`uint16(hi)<<8 + uint16(lo)` / `binary.BigEndian` (uint16 arithmetic). -/
def be16 (hi lo : Nat) : Nat := (hi * 256 + lo) % 65536

/-- High byte of a port: Go `byte(tgtPort >> 8)`. -/
def portHi (p : Nat) : Nat := (p / 256) % 256

/-- Low byte of a port: Go `byte(tgtPort)`. -/
def portLo (p : Nat) : Nat := p % 256

/-! ## Model of `net.ParseIP` / `IP.To4` (Go standard library)

`Trojan.Wrap` classifies its host argument with `net.ParseIP` (which
returns a 16-byte address, IPv4 addresses in their 4-in-6 form) followed
by `IP.To4`.  These are external library functions; they are modelled here
from their documented contract: dotted-quad decimal for IPv4 (fields
0..255, no leading zeros), RFC 4291 notation for IPv6 (hex groups, one
optional `::` gap, optional trailing dotted quad). -/

/-- Decimal digit value of a byte, if it is an ASCII digit. -/
def decVal (c : Nat) : Option Nat :=
  if 48 ≤ c ∧ c ≤ 57 then some (c - 48) else none

/-- Hex digit value of a byte, if it is an ASCII hex digit. -/
def hexVal (c : Nat) : Option Nat :=
  if 48 ≤ c ∧ c ≤ 57 then some (c - 48)
  else if 97 ≤ c ∧ c ≤ 102 then some (c - 87)
  else if 65 ≤ c ∧ c ≤ 70 then some (c - 55)
  else none

/-- Split a byte string on the ASCII dot (46). -/
def splitDots : Bytes → List Bytes
  | [] => [[]]
  | c :: r =>
    if c = 46 then [] :: splitDots r
    else match splitDots r with
         | [] => [[c]]
         | g :: gs => (c :: g) :: gs

/-- Accumulate decimal digits; fails on a non-digit byte. -/
def parseDecAux : Bytes → Nat → Option Nat
  | [], acc => some acc
  | c :: r, acc =>
    match decVal c with
    | some d => parseDecAux r (acc * 10 + d)
    | none => none

/-- One dotted-quad field: 1-3 decimal digits, value at most 255, no
leading zero. -/
def parseDecField (f : Bytes) : Option Nat :=
  if f = [] ∨ 3 < f.length ∨ (1 < f.length ∧ f.headD 0 = 48) then none
  else match parseDecAux f 0 with
       | some v => if v ≤ 255 then some v else none
       | none => none

/-- Dotted-quad IPv4 literal parser: exactly four fields. -/
def parseIPv4 (host : Bytes) : Option Bytes :=
  match splitDots host with
  | [a, b, c, d] => do
    let va ← parseDecField a
    let vb ← parseDecField b
    let vc ← parseDecField c
    let vd ← parseDecField d
    pure [va, vb, vc, vd]
  | _ => none

/-- Leading hex-digit values of a byte string, and the rest. -/
def takeHex : Bytes → (List Nat × Bytes)
  | [] => ([], [])
  | c :: r =>
    match hexVal c with
    | some v => match takeHex r with | (vs, rest) => (v :: vs, rest)
    | none => ([], c :: r)

/-- One IPv6 hex group: 1-4 hex digits. -/
def parseHexGroup (s : Bytes) : Option (Nat × Bytes) :=
  match takeHex s with
  | (vs, rest) =>
    if vs = [] ∨ 4 < vs.length then none
    else some (vs.foldl (fun a v => a * 16 + v) 0, rest)

/-- Expand the `::` gap recorded at position `e` with zero bytes up to the
16-byte IPv6 size. -/
def fillZeros (acc : Bytes) (e : Nat) : Bytes :=
  acc.take e ++ List.replicate (16 - acc.length) 0 ++ acc.drop e

/-- Main IPv6 parsing loop: `s` is the remaining input, `acc` the bytes
built so far, `ell` the byte position of the `::` gap if one was seen. -/
def parseV6Loop : Nat → Bytes → Bytes → Option Nat → Option Bytes
  | fuel, s, acc, ell =>
    if 16 ≤ acc.length then
      if s = [] ∧ ell = none ∧ acc.length = 16 then some acc else none
    else if s = [] then
      match ell with
      | some e => some (fillZeros acc e)
      | none => none
    else
      match fuel with
      | 0 => none
      | fuel' + 1 =>
        if (s.takeWhile (· ≠ 58)).contains 46 then
          -- trailing dotted-quad part; must consume the whole rest
          match parseIPv4 s with
          | some bs4 =>
            if acc.length + 4 ≤ 16 then parseV6Loop fuel' [] (acc ++ bs4) ell else none
          | none => none
        else
          match parseHexGroup s with
          | none => none
          | some (v, rest) =>
            let acc2 := acc ++ [v / 256, v % 256]
            match rest with
            | [] => parseV6Loop fuel' [] acc2 ell
            | 58 :: 58 :: r3 =>
              match ell with
              | some _ => none
              | none => parseV6Loop fuel' r3 acc2 (some acc2.length)
            | 58 :: r3 => parseV6Loop fuel' r3 acc2 ell
            | _ => none

/-- IPv6 literal parser, producing the 16 address bytes. -/
def parseIPv6 (host : Bytes) : Option Bytes :=
  match host with
  | 58 :: 58 :: rest => parseV6Loop (rest.length + 1) rest [] (some 0)
  | 58 :: _ => none
  | _ => parseV6Loop (host.length + 1) host [] none

/-- First separator byte of the host: `net.ParseIP` dispatches on whether
a dot or a colon appears first. -/
def firstSep : Bytes → Option Nat
  | [] => none
  | c :: r => if c = 46 ∨ c = 58 then some c else firstSep r

/-- The 4-in-6 form `net.ParseIP` uses for IPv4 results. -/
def v4InV6 (bs : Bytes) : Bytes :=
  [0, 0, 0, 0, 0, 0, 0, 0, 0, 0, 255, 255] ++ bs

/-- Model of `net.ParseIP`: a 16-byte address, or `none`. -/
def parseIP (host : Bytes) : Option Bytes :=
  match firstSep host with
  | some 46 => (parseIPv4 host).map v4InV6
  | some 58 => parseIPv6 host
  | _ => none

/-- Model of `IP.To4` on a 16-byte address: the low 4 bytes when the
address is in the 4-in-6 range, else `none`. -/
def ipTo4 (ip : Bytes) : Option Bytes :=
  if ip.take 12 = [0, 0, 0, 0, 0, 0, 0, 0, 0, 0, 255, 255] then some (ip.drop 12)
  else none

/-- Host classification as performed by `Trojan.Wrap`'s switch:
`len(ip.To4()) != 0` selects IPv4, else `len(ip) != 0` selects IPv6, else
the host is a domain name. -/
inductive HostClass where
  | v4 (bs : Bytes)
  | v6 (bs : Bytes)
  | name
  deriving DecidableEq, Repr

/-- Evaluate the switch at the top of `Trojan.Wrap`. -/
def classify (host : Bytes) : HostClass :=
  match parseIP host with
  | none => .name
  | some ip =>
    match ipTo4 ip with
    | some bs4 => .v4 bs4
    | none => .v6 ip

/-! ## The Trojan transport (`src/transport/trojan/trojan.go`) -/

/-- Hex character for a nibble, per `encoding/hex`'s lowercase table. -/
def hexDigit (n : Nat) : Nat := if n < 10 then 48 + n else 87 + n

/-- Model of `hex.Encode`: two lowercase hex characters per byte. -/
def hexEncode : Bytes → Bytes
  | [] => []
  | b :: r => hexDigit (b / 16) :: hexDigit (b % 16) :: hexEncode r

/-- The transport state: the precomputed 56-byte hex digest of the
password (`headPasswd` in the source; the three per-address-type headers
are derived from it below). -/
structure Trojan where
  headPasswd : Bytes
  deriving DecidableEq, Repr

/-- Model of `New(password)`: `passSum` stands for the 28-byte
`sha256.Sum224(password)` value (the hash itself is an external crypto
primitive); `New` stores its 56-character hex encoding. -/
def New (passSum : Bytes) : Trojan := ⟨hexEncode passSum⟩

/-- Precomputed header for IPv4 targets: digest, CRLF, CMD=CONNECT(0x01),
ATYP=0x01. -/
def Trojan.headIPv4 (t : Trojan) : Bytes := t.headPasswd ++ [13, 10, 1, 1]

/-- Precomputed header for IPv6 targets: digest, CRLF, CMD=0x01,
ATYP=0x04. -/
def Trojan.headIPv6 (t : Trojan) : Bytes := t.headPasswd ++ [13, 10, 1, 4]

/-- Precomputed header for domain targets: digest, CRLF, CMD=0x01,
ATYP=0x03. -/
def Trojan.headDomain (t : Trojan) : Bytes := t.headPasswd ++ [13, 10, 1, 3]

/-- Model of `Trojan.Wrap`: the byte frame written to the connection in
one `conn.Write` call.  The domain branch writes `byte(len(tgtHost))`,
i.e. the length reduced mod 256, with no length check. -/
def Trojan.Wrap (t : Trojan) (tgtHost : Bytes) (tgtPort : Nat) : Bytes :=
  (match classify tgtHost with
   | .v4 bs => t.headIPv4 ++ bs
   | .v6 bs => t.headIPv6 ++ bs
   | .name => t.headDomain ++ [tgtHost.length % 256] ++ tgtHost)
  ++ [portHi tgtPort, portLo tgtPort, 13, 10]

/-- The `net.Addr` values `Unwrap` can return: `ipv4Addr`, `ipv6Addr`, or
`domain` (whose `CRLF` field is never filled by `Fulfill` and so is left
out). -/
inductive NetAddr where
  | ipv4Addr (ADDR : Bytes) (PORT : Nat) (CRLF : Bytes)
  | ipv6Addr (ADDR : Bytes) (PORT : Nat) (CRLF : Bytes)
  | domain (ADDR : Bytes) (PORT : Nat)
  deriving DecidableEq, Repr

/-- The address-type dispatch of `Unwrap`, after the 60-byte head has been
read and authenticated: `atyp` is the byte at offset 59, `s1` the rest of
the connection.  IPv4/IPv6 payloads are read with `binary.Read`
(= `io.ReadFull`); the domain payload with two raw `Read` calls requiring
exact counts (`domain.Fulfill`). -/
def unwrapBody (atyp : Nat) (s1 : Stream) : Option NetAddr :=
  if atyp = 1 then
    match readFull s1 8 with
    | none => none
    | some (bs, _) =>
      some (.ipv4Addr (bs.take 4) (be16 (bs.getD 4 0) (bs.getD 5 0)) (bs.drop 6))
  else if atyp = 4 then
    match readFull s1 20 with
    | none => none
    | some (bs, _) =>
      some (.ipv6Addr (bs.take 16) (be16 (bs.getD 16 0) (bs.getD 17 0)) (bs.drop 18))
  else if atyp = 3 then
    match readOnce s1 1 with
    | none => none
    | some (lb, s2) =>
      if lb.length = 1 then
        match readOnce s2 (lb.getD 0 0 + 4) with
        | none => none
        | some (bs, _) =>
          if bs.length = lb.getD 0 0 + 4 then
            some (.domain (bs.take (lb.getD 0 0))
              (be16 (bs.getD (lb.getD 0 0) 0) (bs.getD (lb.getD 0 0 + 1) 0)))
          else none
      else none
  else none

/-- Model of `Trojan.Unwrap`: one raw `conn.Read` of the 60-byte head
(exact count required), a byte-for-byte secret comparison, then the
address-type dispatch of `unwrapBody`. -/
def Trojan.Unwrap (t : Trojan) (s : Stream) : Option NetAddr :=
  match readOnce s 60 with
  | none => none
  | some (buf, s1) =>
    if buf.length = 60 then
      if buf.take 56 = t.headPasswd then
        unwrapBody (buf.getD 59 0) s1
      else none
    else none

/-! ## The dial closure (`GenProxyDial`, `src/unnamed/part_000`) -/

/-- Environment of the closure returned by `GenProxyDial`: the per-type
`dialFn` (a successful dial yields a connection identifier) and whether
the transport's `Wrap` succeeds on a given connection. -/
structure DialEnv where
  dialFn : Bytes → Nat → Option Nat
  wrapOk : Nat → Bool

/-- Observable outcome of one call of the returned `ProxyDialFn`. -/
structure DialOutcome where
  dialed : Bool
  closed : List Nat
  result : Option Nat
  deriving DecidableEq, Repr

/-- Model of the closure returned by `GenProxyDial`: reject an empty host
or zero port before dialing; on a dial error propagate it; if `Wrap`
fails, close the fresh connection before propagating the error. -/
def proxyDialFn (env : DialEnv) (_network : Bytes) (host : Bytes) (port : Nat) : DialOutcome :=
  if host = [] ∨ port = 0 then ⟨false, [], none⟩
  else
    match env.dialFn host port with
    | none => ⟨true, [], none⟩
    | some conn =>
      if env.wrapOk conn then ⟨true, [], some conn⟩
      else ⟨true, [conn], none⟩

/-! ## The HTTP front-end (`ServeHTTP`, `src/unnamed/part_000`) -/

/-- Bytes of an ASCII string literal. -/
def strBytes (s : String) : Bytes := s.data.map Char.toNat

/-- Split a byte string on CRLF pairs. -/
def splitCRLF : Bytes → List Bytes
  | [] => [[]]
  | 13 :: 10 :: r => [] :: splitCRLF r
  | c :: r =>
    match splitCRLF r with
    | [] => [[c]]
    | l :: ls => (c :: l) :: ls

/-- ASCII lower-casing of one byte. -/
def lowerByte (c : Nat) : Nat := if 65 ≤ c ∧ c ≤ 90 then c + 32 else c

/-- Find the value of the first `Host` header (case-insensitive name,
leading spaces of the value dropped), stopping at the blank line that
ends the header block. -/
def findHost : List Bytes → Option Bytes
  | [] => none
  | line :: rest =>
    if line = [] then none
    else
      let nm := line.takeWhile (· ≠ 58)
      if nm.map lowerByte = strBytes "host" then
        some ((line.drop (nm.length + 1)).dropWhile (· = 32))
      else findHost rest

/-- Modelled from the spec: the HTTP front-end parses the request line and
headers just far enough to read the `Host` field (`http.ReadRequest` is an
external library routine).  Returns the verbatim `Host` value. -/
def readRequestHost (raw : Bytes) : Option Bytes :=
  match splitCRLF raw with
  | [] => none
  | _reqLine :: rest => findHost rest

/-- Model of the dial performed by `ServeHTTP`: on a parsed request it
calls `r.ProxyDial("tcp", req.Host, 80)` — the network, host, and port
arguments it passes are returned here. -/
def serveHTTPDial (raw : Bytes) : Option (Bytes × Bytes × Nat) :=
  match readRequestHost raw with
  | none => none
  | some h => some (strBytes "tcp", h, 80)

/-! ## Lemmas about the read model -/

theorem readOnce_cons_big {c : Bytes} {chunks : Stream} {n : Nat} (h : n < c.length) :
    readOnce (c :: chunks) n = some (c.take n, c.drop n :: chunks) := by
  simp [readOnce, h]

theorem readOnce_cons_small {c : Bytes} {chunks : Stream} {n : Nat} (h : c.length ≤ n) :
    readOnce (c :: chunks) n = some (c, chunks) := by
  simp [readOnce, Nat.not_lt.mpr h]

theorem readFull_exact {c : Bytes} {chunks : Stream} {n : Nat} (hn : n ≠ 0)
    (h : c.length = n) : readFull (c :: chunks) n = some (c, chunks) := by
  have h1 : ¬ n < c.length := by omega
  have h2 : n - c.length = 0 := by omega
  have h3 : readFull chunks 0 = some ([], chunks) := by unfold readFull; simp
  unfold readFull
  simp [hn, h1, h2, h3]

/-! ## Lemmas about the address parsers -/

theorem parseIPv4_length {host bs : Bytes} (h : parseIPv4 host = some bs) :
    bs.length = 4 := by
  unfold parseIPv4 at h
  split at h
  · simp only [Option.bind_eq_bind, Option.bind_eq_some, Option.pure_def,
      Option.some.injEq] at h
    obtain ⟨_, _, _, _, _, _, _, _, rfl⟩ := h
    rfl
  · exact absurd h (by simp)

theorem fillZeros_length {acc : Bytes} {e : Nat} (he : e ≤ acc.length)
    (hlt : acc.length < 16) : (fillZeros acc e).length = 16 := by
  simp only [fillZeros, List.length_append, List.length_take, List.length_replicate,
    List.length_drop]
  omega

theorem parseV6Loop_length :
    ∀ (fuel : Nat) (s acc : Bytes) (ell : Option Nat) (out : Bytes),
      (∀ e, ell = some e → e ≤ acc.length) →
      parseV6Loop fuel s acc ell = some out → out.length = 16 := by
  intro fuel
  induction fuel with
  | zero =>
    intro s acc ell out hinv h
    unfold parseV6Loop at h
    split at h
    · split at h
      · rename_i hcond
        cases h
        exact hcond.2.2
      · exact absurd h (by simp)
    · rename_i h16
      split at h
      · split at h
        · rename_i e
          cases h
          exact fillZeros_length (hinv e rfl) (by omega)
        · exact absurd h (by simp)
      · exact absurd h (by simp)
  | succ fuel ih =>
    intro s acc ell out hinv h
    unfold parseV6Loop at h
    split at h
    · split at h
      · rename_i hcond
        cases h
        exact hcond.2.2
      · exact absurd h (by simp)
    · rename_i h16
      split at h
      · split at h
        · rename_i e
          cases h
          exact fillZeros_length (hinv e rfl) (by omega)
        · exact absurd h (by simp)
      · -- the loop body; the fuel pattern match first
        split at h
        · exact absurd h (by simp)
        · rename_i fuel' heq
          obtain rfl : fuel' = fuel := by omega
          split at h
          · -- trailing dotted-quad branch
            split at h
            · rename_i bs4 hbs4
              split at h
              · exact ih _ _ _ _
                  (fun e he => le_trans (hinv e he)
                    (by simp only [List.length_append]; omega)) h
              · exact absurd h (by simp)
            · exact absurd h (by simp)
          · -- hex group branch
            split at h
            · exact absurd h (by simp)
            · rename_i v rest hgrp
              split at h
              · exact ih _ _ _ _
                  (fun e he => le_trans (hinv e he)
                    (by simp only [List.length_append]; omega)) h
              · split at h
                · exact absurd h (by simp)
                · exact ih _ _ _ _ (fun e he => by cases he; simp) h
              · exact ih _ _ _ _
                  (fun e he => le_trans (hinv e he)
                    (by simp only [List.length_append]; omega)) h
              · exact absurd h (by simp)

theorem parseIPv6_length {host bs : Bytes} (h : parseIPv6 host = some bs) :
    bs.length = 16 := by
  unfold parseIPv6 at h
  split at h
  · exact parseV6Loop_length _ _ _ _ _ (fun e he => by cases he; simp) h
  · exact absurd h (by simp)
  · exact parseV6Loop_length _ _ _ _ _ (fun e he => by cases he) h

theorem parseIP_length {host ip : Bytes} (h : parseIP host = some ip) :
    ip.length = 16 := by
  unfold parseIP at h
  split at h
  · rw [Option.map_eq_some'] at h
    obtain ⟨bs, hbs, rfl⟩ := h
    simp [v4InV6, parseIPv4_length hbs]
  · exact parseIPv6_length h
  · exact absurd h (by simp)

theorem classify_v4_length {host bs : Bytes} (h : classify host = .v4 bs) :
    bs.length = 4 := by
  unfold classify at h
  split at h
  · exact absurd h (by simp)
  · rename_i ip hip
    split at h
    · rename_i bs4 heq
      cases h
      unfold ipTo4 at heq
      split at heq
      · cases heq
        simp [List.length_drop, parseIP_length hip]
      · exact absurd heq (by simp)
    · exact absurd h (by simp)

theorem classify_v6_length {host bs : Bytes} (h : classify host = .v6 bs) :
    bs.length = 16 := by
  unfold classify at h
  split at h
  · exact absurd h (by simp)
  · rename_i ip hip
    split at h
    · exact absurd h (by simp)
    · cases h
      exact parseIP_length hip

/-! ## Lemmas about Unwrap on well-formed frames -/

theorem be16_hilo {p : Nat} (hp : p ≤ 65535) : be16 (portHi p) (portLo p) = p := by
  unfold be16 portHi portLo
  have h1 : p / 256 < 256 := by omega
  rw [Nat.mod_eq_of_lt h1]
  have h2 : p / 256 * 256 + p % 256 = p := by
    rw [Nat.mul_comm]
    exact Nat.div_add_mod p 256
  rw [h2, Nat.mod_eq_of_lt (by omega)]

theorem unwrap_head (t : Trojan) (h56 : t.headPasswd.length = 56)
    (x y cmd atyp : Nat) (tail : Bytes) (htail : tail ≠ []) (chunks : Stream) :
    Trojan.Unwrap t ((t.headPasswd ++ [x, y, cmd, atyp] ++ tail) :: chunks) =
      unwrapBody atyp (tail :: chunks) := by
  have hH : (t.headPasswd ++ [x, y, cmd, atyp]).length = 60 := by simp [h56]
  have hlen : 60 < ((t.headPasswd ++ [x, y, cmd, atyp]) ++ tail).length := by
    rcases tail with _ | ⟨b, bs⟩
    · exact absurd rfl htail
    · simp only [List.length_append, List.length_cons, h56]
      omega
  have h2 : (t.headPasswd ++ [x, y, cmd, atyp]).getD 59 0 = atyp := by
    rw [List.getD_append_right _ _ _ _ (by omega : t.headPasswd.length ≤ 59)]
    have h3 : 59 - t.headPasswd.length = 3 := by omega
    rw [h3]
    rfl
  unfold Trojan.Unwrap
  simp only [readOnce_cons_big hlen, List.take_left' hH, List.drop_left' hH, hH,
    List.take_left' h56, h2, eq_self_iff_true, if_true]

theorem unwrap_head_chunk (t : Trojan) (h56 : t.headPasswd.length = 56)
    (x y cmd atyp : Nat) (chunks : Stream) :
    Trojan.Unwrap t ((t.headPasswd ++ [x, y, cmd, atyp]) :: chunks) =
      unwrapBody atyp chunks := by
  have hH : (t.headPasswd ++ [x, y, cmd, atyp]).length = 60 := by simp [h56]
  have h2 : (t.headPasswd ++ [x, y, cmd, atyp]).getD 59 0 = atyp := by
    rw [List.getD_append_right _ _ _ _ (by omega : t.headPasswd.length ≤ 59)]
    have h3 : 59 - t.headPasswd.length = 3 := by omega
    rw [h3]
    rfl
  unfold Trojan.Unwrap
  simp only [readOnce_cons_small (le_of_eq hH), hH, List.take_left' h56, h2,
    eq_self_iff_true, if_true]

theorem unwrapBody_v4 (tail : Bytes) (h8 : tail.length = 8) (chunks : Stream) :
    unwrapBody 1 (tail :: chunks) =
      some (.ipv4Addr (tail.take 4) (be16 (tail.getD 4 0) (tail.getD 5 0)) (tail.drop 6)) := by
  unfold unwrapBody
  rw [if_pos rfl, readFull_exact (by omega) h8]

theorem unwrapBody_v6 (tail : Bytes) (h20 : tail.length = 20) (chunks : Stream) :
    unwrapBody 4 (tail :: chunks) =
      some (.ipv6Addr (tail.take 16) (be16 (tail.getD 16 0) (tail.getD 17 0)) (tail.drop 18)) := by
  unfold unwrapBody
  rw [if_neg (by omega), if_pos rfl, readFull_exact (by omega) h20]

theorem unwrapBody_dom (L : Nat) (body : Bytes) (hb : body.length = L + 4)
    (chunks : Stream) :
    unwrapBody 3 ((L :: body) :: chunks) =
      some (.domain (body.take L) (be16 (body.getD L 0) (body.getD (L + 1) 0))) := by
  unfold unwrapBody
  rw [if_neg (by omega), if_neg (by omega), if_pos rfl]
  rw [readOnce_cons_big (by simp [hb] : 1 < (L :: body).length)]
  simp only [List.take_succ_cons, List.take_zero, List.drop_succ_cons, List.drop_zero]
  rw [readOnce_cons_small (by simp [hb] : body.length ≤ [L].getD 0 0 + 4)]
  simp [hb]

theorem unwrapBody_other {atyp : Nat} (h1 : atyp ≠ 1) (h3 : atyp ≠ 3) (h4 : atyp ≠ 4)
    (s1 : Stream) : unwrapBody atyp s1 = none := by
  unfold unwrapBody
  rw [if_neg h1, if_neg h4, if_neg h3]

/-! ## Lemmas about the Wrap frames -/

theorem Wrap_frame_v4 {host bs : Bytes} (h : classify host = .v4 bs) (t : Trojan)
    (p : Nat) : Trojan.Wrap t host p =
      t.headPasswd ++ [13, 10, 1, 1] ++ (bs ++ [portHi p, portLo p, 13, 10]) := by
  unfold Trojan.Wrap Trojan.headIPv4
  rw [h]
  simp [List.append_assoc]

theorem Wrap_frame_v6 {host bs : Bytes} (h : classify host = .v6 bs) (t : Trojan)
    (p : Nat) : Trojan.Wrap t host p =
      t.headPasswd ++ [13, 10, 1, 4] ++ (bs ++ [portHi p, portLo p, 13, 10]) := by
  unfold Trojan.Wrap Trojan.headIPv6
  rw [h]
  simp [List.append_assoc]

theorem Wrap_frame_dom {host : Bytes} (h : classify host = .name) (t : Trojan)
    (p : Nat) : Trojan.Wrap t host p =
      t.headPasswd ++ [13, 10, 1, 3] ++
        ((host.length % 256) :: (host ++ [portHi p, portLo p, 13, 10])) := by
  unfold Trojan.Wrap Trojan.headDomain
  rw [h]
  simp [List.append_assoc]

theorem roundtrip_v4 {t : Trojan} (h56 : t.headPasswd.length = 56) {host bs : Bytes}
    (hcls : classify host = .v4 bs) {p : Nat} (hp : p ≤ 65535) :
    Trojan.Unwrap t [Trojan.Wrap t host p] = some (.ipv4Addr bs p [13, 10]) := by
  have hb4 := classify_v4_length hcls
  rw [Wrap_frame_v4 hcls, unwrap_head t h56 13 10 1 1 _ (by simp) [],
    unwrapBody_v4 _ (by simp [hb4]) []]
  have h1 : (bs ++ [portHi p, portLo p, 13, 10]).take 4 = bs := List.take_left' hb4
  have h2 : (bs ++ [portHi p, portLo p, 13, 10]).getD 4 0 = portHi p := by
    rw [List.getD_append_right _ _ _ _ (by omega), hb4]
    rfl
  have h3 : (bs ++ [portHi p, portLo p, 13, 10]).getD 5 0 = portLo p := by
    rw [List.getD_append_right _ _ _ _ (by omega), hb4]
    rfl
  have h4 : (bs ++ [portHi p, portLo p, 13, 10]).drop 6 = [13, 10] := by
    have h5 : (bs ++ [portHi p, portLo p, 13, 10]).drop (bs.length + 2)
        = [portHi p, portLo p, 13, 10].drop 2 := List.drop_append 2
    rw [hb4] at h5
    exact h5
  rw [h1, h2, h3, h4, be16_hilo hp]

theorem roundtrip_v6 {t : Trojan} (h56 : t.headPasswd.length = 56) {host bs : Bytes}
    (hcls : classify host = .v6 bs) {p : Nat} (hp : p ≤ 65535) :
    Trojan.Unwrap t [Trojan.Wrap t host p] = some (.ipv6Addr bs p [13, 10]) := by
  have hb16 := classify_v6_length hcls
  rw [Wrap_frame_v6 hcls, unwrap_head t h56 13 10 1 4 _ (by simp) [],
    unwrapBody_v6 _ (by simp [hb16]) []]
  have h1 : (bs ++ [portHi p, portLo p, 13, 10]).take 16 = bs := List.take_left' hb16
  have h2 : (bs ++ [portHi p, portLo p, 13, 10]).getD 16 0 = portHi p := by
    rw [List.getD_append_right _ _ _ _ (by omega), hb16]
    rfl
  have h3 : (bs ++ [portHi p, portLo p, 13, 10]).getD 17 0 = portLo p := by
    rw [List.getD_append_right _ _ _ _ (by omega), hb16]
    rfl
  have h4 : (bs ++ [portHi p, portLo p, 13, 10]).drop 18 = [13, 10] := by
    have h5 : (bs ++ [portHi p, portLo p, 13, 10]).drop (bs.length + 2)
        = [portHi p, portLo p, 13, 10].drop 2 := List.drop_append 2
    rw [hb16] at h5
    exact h5
  rw [h1, h2, h3, h4, be16_hilo hp]

theorem roundtrip_dom {t : Trojan} (h56 : t.headPasswd.length = 56) {host : Bytes}
    (hcls : classify host = .name) (hlen : host.length ≤ 255) {p : Nat}
    (hp : p ≤ 65535) :
    Trojan.Unwrap t [Trojan.Wrap t host p] = some (.domain host p) := by
  have hL : host.length % 256 = host.length := Nat.mod_eq_of_lt (by omega)
  rw [Wrap_frame_dom hcls, unwrap_head t h56 13 10 1 3 _ (by simp) [],
    unwrapBody_dom _ _ (by simp [hL]) []]
  have h1 : (host ++ [portHi p, portLo p, 13, 10]).take (host.length % 256) = host := by
    rw [hL]
    exact List.take_left _ _
  have h2 : (host ++ [portHi p, portLo p, 13, 10]).getD (host.length % 256) 0
      = portHi p := by
    rw [hL, List.getD_append_right _ _ _ _ (by omega), Nat.sub_self]
    rfl
  have h3 : (host ++ [portHi p, portLo p, 13, 10]).getD (host.length % 256 + 1) 0
      = portLo p := by
    rw [hL, List.getD_append_right _ _ _ _ (by omega)]
    have h4 : host.length + 1 - host.length = 1 := by omega
    rw [h4]
    rfl
  rw [h1, h2, h3, be16_hilo hp]

theorem getD_take {l : Bytes} {n i : Nat} (h : i < n) (d : Nat) :
    (l.take n).getD i d = l.getD i d := by
  induction l generalizing n i with
  | nil => simp
  | cons a r ih =>
    cases n with
    | zero => omega
    | succ m =>
      cases i with
      | zero => simp [List.take_succ_cons, List.getD_cons_zero]
      | succ j =>
        simp only [List.take_succ_cons, List.getD_cons_succ]
        exact ih (by omega)

theorem hexEncode_length (bs : Bytes) : (hexEncode bs).length = 2 * bs.length := by
  induction bs with
  | nil => rfl
  | cons b r ih => simp [hexEncode, ih]; omega

/-! ## Claim theorems -/

/-- C1: for every valid host — an IPv4 literal (classified `.v4`), an IPv6
literal (classified `.v6`), or a domain name of at most 255 bytes — and
every port in [1, 65535], feeding the frame produced by `Wrap(host, port)`
into `Unwrap` yields an address of the same family whose host bytes and
port equal the input host and port. -/
theorem trojan_wrap_unwrap_roundtrip (t : Trojan) (h56 : t.headPasswd.length = 56)
    (host : Bytes) (port : Nat) (_hp1 : 1 ≤ port) (hp2 : port ≤ 65535) :
    (∀ bs, classify host = .v4 bs →
      Trojan.Unwrap t [Trojan.Wrap t host port] = some (.ipv4Addr bs port [13, 10])) ∧
    (∀ bs, classify host = .v6 bs →
      Trojan.Unwrap t [Trojan.Wrap t host port] = some (.ipv6Addr bs port [13, 10])) ∧
    (classify host = .name → host.length ≤ 255 →
      Trojan.Unwrap t [Trojan.Wrap t host port] = some (.domain host port)) :=
  ⟨fun _ h => roundtrip_v4 h56 h hp2,
   fun _ h => roundtrip_v6 h56 h hp2,
   fun h hl => roundtrip_dom h56 h hl hp2⟩

/-- Witness for C1 at the IPv4 literal 93.184.216.34 and port 443. -/
theorem trojan_wrap_unwrap_roundtrip_witness :
    (⟨List.replicate 56 97⟩ : Trojan).headPasswd.length = 56 ∧ 1 ≤ 443 ∧
      443 ≤ 65535 ∧
      Trojan.Unwrap ⟨List.replicate 56 97⟩
          [Trojan.Wrap ⟨List.replicate 56 97⟩ (strBytes "93.184.216.34") 443] =
        some (.ipv4Addr [93, 184, 216, 34] 443 [13, 10]) :=
  ⟨by decide, by decide, by decide,
    (trojan_wrap_unwrap_roundtrip ⟨List.replicate 56 97⟩ (by decide)
        (strBytes "93.184.216.34") 443 (by decide) (by decide)).1
      [93, 184, 216, 34] (by decide)⟩

/-- C2: Wrap produces exactly one frame laid out as the 56-byte hex digest,
CRLF, the command byte 0x01, an address-type byte and address payload, the
port in big-endian, and a final CRLF; with host 93.184.216.34 and port 443
the address-type byte is 0x01 followed by the bytes 93 184 216 34, and with
host example.com and port 8080 the address type is 0x03, the length byte
11, the ASCII name, then port bytes 0x1F 0x90. -/
theorem trojan_wrap_frame_layout (passSum : Bytes) (hps : passSum.length = 28) :
    (New passSum).headPasswd.length = 56 ∧
    Trojan.Wrap (New passSum) (strBytes "93.184.216.34") 443 =
      hexEncode passSum ++ [13, 10] ++ [1] ++ [1] ++ [93, 184, 216, 34] ++
        [1, 187] ++ [13, 10] ∧
    Trojan.Wrap (New passSum) (strBytes "example.com") 8080 =
      hexEncode passSum ++ [13, 10] ++ [1] ++ [3] ++ [11] ++
        strBytes "example.com" ++ [31, 144] ++ [13, 10] ∧
    (∀ host port, ∃ atyp payload, (atyp = 1 ∨ atyp = 3 ∨ atyp = 4) ∧
      Trojan.Wrap (New passSum) host port =
        hexEncode passSum ++ [13, 10] ++ [1] ++ [atyp] ++ payload ++
          [portHi port, portLo port] ++ [13, 10]) := by
  refine ⟨?_, ?_, ?_, ?_⟩
  · simp [New, hexEncode_length, hps]
  · rw [Wrap_frame_v4
      (by decide : classify (strBytes "93.184.216.34") = .v4 [93, 184, 216, 34]),
      (by decide : portHi 443 = 1), (by decide : portLo 443 = 187)]
    simp [New, List.append_assoc]
  · rw [Wrap_frame_dom (by decide : classify (strBytes "example.com") = .name),
      (by decide : portHi 8080 = 31), (by decide : portLo 8080 = 144)]
    simp [New, List.append_assoc, strBytes]
  · intro host port
    rcases hc : classify host with bs | bs | _
    · exact ⟨1, bs, Or.inl rfl, by rw [Wrap_frame_v4 hc]; simp [New, List.append_assoc]⟩
    · exact ⟨4, bs, by omega, by rw [Wrap_frame_v6 hc]; simp [New, List.append_assoc]⟩
    · exact ⟨3, (host.length % 256) :: host, by omega,
        by rw [Wrap_frame_dom hc]; simp [New, List.append_assoc]⟩

/-- Witness for C2 at the all-zero 28-byte digest. -/
theorem trojan_wrap_frame_layout_witness :
    (List.replicate 28 0 : Bytes).length = 28 ∧
      Trojan.Wrap (New (List.replicate 28 0)) (strBytes "93.184.216.34") 443 =
        hexEncode (List.replicate 28 0) ++ [13, 10] ++ [1] ++ [1] ++
          [93, 184, 216, 34] ++ [1, 187] ++ [13, 10] :=
  ⟨by decide, (trojan_wrap_frame_layout (List.replicate 28 0) (by decide)).2.1⟩

/-- C3: every input whose first 56 bytes differ in at least one byte from
the configured digest makes Unwrap fail, regardless of the address-type
byte and of any bytes that follow. -/
theorem trojan_unwrap_auth_mismatch (t : Trojan) (c : Bytes) (chunks : Stream)
    (hne : c.take 56 ≠ t.headPasswd) : Trojan.Unwrap t (c :: chunks) = none := by
  unfold Trojan.Unwrap
  rcases Nat.lt_or_ge 60 c.length with h | h
  · have ht : (c.take 60).take 56 = c.take 56 := by
      rw [List.take_take]
      norm_num
    simp only [readOnce_cons_big h, ht]
    rw [if_pos (by rw [List.length_take]; omega : (c.take 60).length = 60),
      if_neg hne]
  · simp only [readOnce_cons_small h]
    by_cases h60 : c.length = 60
    · rw [if_pos h60, if_neg hne]
    · rw [if_neg h60]

/-- Witness for C3: a 60-byte head of zeros against an all-97 digest. -/
theorem trojan_unwrap_auth_mismatch_witness :
    (List.replicate 60 0 : Bytes).take 56 ≠
        (⟨List.replicate 56 97⟩ : Trojan).headPasswd ∧
      Trojan.Unwrap ⟨List.replicate 56 97⟩ [List.replicate 60 0] = none :=
  ⟨by decide, trojan_unwrap_auth_mismatch ⟨List.replicate 56 97⟩
    (List.replicate 60 0) [] (by decide)⟩

/-- C4: Unwrap reads the 60-byte head in a single read and requires the
exact count — a first read delivering fewer than 60 bytes fails even when
more data follows in later chunks — and a head whose address-type byte at
offset 59 is not 0x01, 0x03 or 0x04 also fails. -/
theorem trojan_unwrap_head_strict (t : Trojan) (c : Bytes) (chunks : Stream) :
    (c.length < 60 → Trojan.Unwrap t (c :: chunks) = none) ∧
    (60 ≤ c.length → c.getD 59 0 ≠ 1 → c.getD 59 0 ≠ 3 → c.getD 59 0 ≠ 4 →
      Trojan.Unwrap t (c :: chunks) = none) := by
  constructor
  · intro h
    unfold Trojan.Unwrap
    simp only [readOnce_cons_small (by omega : c.length ≤ 60)]
    rw [if_neg (by omega)]
  · intro h h1 h3 h4
    unfold Trojan.Unwrap
    rcases Nat.lt_or_ge 60 c.length with hlt | hge
    · have hg : (c.take 60).getD 59 0 = c.getD 59 0 := getD_take (by omega) 0
      simp only [readOnce_cons_big hlt]
      rw [if_pos (by rw [List.length_take]; omega : (c.take 60).length = 60)]
      by_cases hsec : (c.take 60).take 56 = t.headPasswd
      · rw [if_pos hsec, hg, unwrapBody_other h1 h3 h4]
      · rw [if_neg hsec]
    · have h60 : c.length = 60 := by omega
      simp only [readOnce_cons_small hge]
      rw [if_pos h60]
      by_cases hsec : c.take 56 = t.headPasswd
      · rw [if_pos hsec, unwrapBody_other h1 h3 h4]
      · rw [if_neg hsec]

/-- Witness for C4: a 30-byte first read (with more data following) and a
60-byte head with address type 0x05. -/
theorem trojan_unwrap_head_strict_witness :
    ((List.replicate 30 97 : Bytes).length < 60 ∧
      Trojan.Unwrap ⟨List.replicate 56 97⟩
        [List.replicate 30 97, List.replicate 30 97] = none) ∧
    (60 ≤ (List.replicate 56 97 ++ [13, 10, 1, 5] : Bytes).length ∧
      Trojan.Unwrap ⟨List.replicate 56 97⟩ [List.replicate 56 97 ++ [13, 10, 1, 5]]
        = none) :=
  ⟨⟨by decide,
    (trojan_unwrap_head_strict ⟨List.replicate 56 97⟩ (List.replicate 30 97)
      [List.replicate 30 97]).1 (by decide)⟩,
   ⟨by decide,
    (trojan_unwrap_head_strict ⟨List.replicate 56 97⟩
      (List.replicate 56 97 ++ [13, 10, 1, 5]) []).2 (by decide) (by decide)
      (by decide) (by decide)⟩⟩

set_option maxRecDepth 100000 in
/-- C5 counterexample: Wrap of a 256-byte domain name does not fail with an
error — it produces a complete frame whose length byte is 0 (= 256 mod 256)
followed by all 256 name bytes: the length prefix is silently truncated. -/
theorem trojan_wrap_overlong_domain_counterexample :
    Trojan.Wrap ⟨List.replicate 56 97⟩ (List.replicate 256 98) 80 =
      List.replicate 56 97 ++ [13, 10, 1, 3] ++ [0] ++ List.replicate 256 98 ++
        [0, 80, 13, 10] := by decide

/-- C5 amended: a domain name of exactly 255 bytes round-trips through Wrap
and Unwrap; Wrap of a longer name does not fail: it writes the length byte
reduced mod 256 ahead of the full name (silent truncation of the length
prefix). -/
theorem trojan_domain_bound_amended (t : Trojan) (h56 : t.headPasswd.length = 56)
    (host : Bytes) (port : Nat) (hn : classify host = .name) (hp : port ≤ 65535) :
    (host.length = 255 →
      Trojan.Unwrap t [Trojan.Wrap t host port] = some (.domain host port)) ∧
    (255 < host.length →
      Trojan.Wrap t host port = t.headPasswd ++ [13, 10, 1, 3] ++
        [host.length % 256] ++ host ++ [portHi port, portLo port, 13, 10]) := by
  constructor
  · intro h255
    exact roundtrip_dom h56 hn (by omega) hp
  · intro _
    rw [Wrap_frame_dom hn]
    simp [List.append_assoc]

set_option maxRecDepth 100000 in
/-- Witness for C5 amended at a 255-byte domain name and port 80. -/
theorem trojan_domain_bound_amended_witness :
    (⟨List.replicate 56 97⟩ : Trojan).headPasswd.length = 56 ∧
    classify (List.replicate 255 98) = .name ∧ 80 ≤ 65535 ∧
    (List.replicate 255 98 : Bytes).length = 255 ∧
    Trojan.Unwrap ⟨List.replicate 56 97⟩
        [Trojan.Wrap ⟨List.replicate 56 97⟩ (List.replicate 255 98) 80] =
      some (.domain (List.replicate 255 98) 80) :=
  ⟨by decide, by decide, by decide, by decide,
    (trojan_domain_bound_amended ⟨List.replicate 56 97⟩ (by decide)
      (List.replicate 255 98) 80 (by decide) (by decide)).1 (by decide)⟩

/-- C6 counterexample: an IPv4 request whose post-head address bytes arrive
in two fragments of 4 bytes each (both smaller than the 8-byte structured
size) is decoded successfully — the read-full primitive underneath
`binary.Read` retries across fragments instead of failing. -/
theorem trojan_unwrap_fragmented_counterexample :
    Trojan.Unwrap ⟨List.replicate 56 97⟩
        [List.replicate 56 97 ++ [13, 10, 1, 1], [9, 9, 9, 9], [0, 80, 13, 10]] =
      some (.ipv4Addr [9, 9, 9, 9] 80 [13, 10]) := by decide

theorem readFull_two {a b : Bytes} {n : Nat} (hn : n ≠ 0)
    (hab : a.length + b.length = n) :
    ∃ s2, readFull [a, b] n = some (a ++ b, s2) := by
  rcases Nat.lt_or_ge a.length n with hlt | hge
  · have h2 : readFull [b] (n - a.length) = some (b, []) :=
      readFull_exact (by omega) (by omega)
    have h3 : ¬ n < a.length := by omega
    refine ⟨[], ?_⟩
    unfold readFull
    simp [hn, h3, h2]
  · have ha : a.length = n := by omega
    have hb0 : b = [] := List.length_eq_zero.mp (by omega)
    subst hb0
    refine ⟨[[]], ?_⟩
    rw [readFull_exact hn ha]
    simp

/-- C6 amended: only the domain variant is read with raw single reads and
fails when the name+port+CRLF bytes arrive fragmented (a read shorter than
length+4); the IPv4 and IPv6 variants read their payloads with a read-full
primitive that accumulates across fragments and succeeds once all 8
(respectively 20) bytes arrive. -/
theorem trojan_unwrap_fragmentation_amended (t : Trojan)
    (h56 : t.headPasswd.length = 56) :
    (∀ (len : Nat) (c : Bytes) (chunks : Stream), c.length < len + 4 →
      Trojan.Unwrap t ((t.headPasswd ++ [13, 10, 1, 3]) :: [len] :: c :: chunks)
        = none) ∧
    (∀ (a b : Bytes), a.length + b.length = 8 →
      Trojan.Unwrap t ((t.headPasswd ++ [13, 10, 1, 1]) :: a :: b :: []) =
        some (.ipv4Addr ((a ++ b).take 4)
          (be16 ((a ++ b).getD 4 0) ((a ++ b).getD 5 0)) ((a ++ b).drop 6))) ∧
    (∀ (a b : Bytes), a.length + b.length = 20 →
      Trojan.Unwrap t ((t.headPasswd ++ [13, 10, 1, 4]) :: a :: b :: []) =
        some (.ipv6Addr ((a ++ b).take 16)
          (be16 ((a ++ b).getD 16 0) ((a ++ b).getD 17 0)) ((a ++ b).drop 18))) := by
  refine ⟨?_, ?_, ?_⟩
  · intro len c chunks hc
    rw [unwrap_head_chunk t h56 13 10 1 3]
    unfold unwrapBody
    rw [if_neg (by omega), if_neg (by omega), if_pos rfl]
    simp only [readOnce_cons_small (by simp : ([len] : Bytes).length ≤ 1),
      List.length_singleton, List.getD_cons_zero, eq_self_iff_true, if_true]
    simp only [readOnce_cons_small (by omega : c.length ≤ len + 4)]
    rw [if_neg (by omega : ¬ c.length = len + 4)]
  · intro a b hab
    rw [unwrap_head_chunk t h56 13 10 1 1]
    unfold unwrapBody
    rw [if_pos rfl]
    obtain ⟨s2, hf⟩ := readFull_two (by omega) hab
    rw [hf]
  · intro a b hab
    rw [unwrap_head_chunk t h56 13 10 1 4]
    unfold unwrapBody
    rw [if_neg (by omega), if_pos rfl]
    obtain ⟨s2, hf⟩ := readFull_two (by omega) hab
    rw [hf]

/-- Witness for C6 amended: a fragmented domain name read fails while
fragmented IPv4 and IPv6 reads succeed. -/
theorem trojan_unwrap_fragmentation_amended_witness :
    (([1, 2] : Bytes).length < 4 + 4 ∧
      Trojan.Unwrap ⟨List.replicate 56 97⟩
        ((List.replicate 56 97 ++ [13, 10, 1, 3]) :: [4] :: [1, 2] :: []) = none) ∧
    (([9, 9] : Bytes).length + ([9, 9, 0, 80, 13, 10] : Bytes).length = 8 ∧
      Trojan.Unwrap ⟨List.replicate 56 97⟩
        ((List.replicate 56 97 ++ [13, 10, 1, 1]) :: [9, 9] ::
          [9, 9, 0, 80, 13, 10] :: []) =
        some (.ipv4Addr [9, 9, 9, 9] 80 [13, 10])) ∧
    (([1, 1, 1, 1, 1, 1, 1, 1, 1, 1] : Bytes).length +
        ([1, 1, 1, 1, 1, 1, 0, 80, 13, 10] : Bytes).length = 20 ∧
      Trojan.Unwrap ⟨List.replicate 56 97⟩
        ((List.replicate 56 97 ++ [13, 10, 1, 4]) :: [1, 1, 1, 1, 1, 1, 1, 1, 1, 1] ::
          [1, 1, 1, 1, 1, 1, 0, 80, 13, 10] :: []) =
        some (.ipv6Addr [1, 1, 1, 1, 1, 1, 1, 1, 1, 1, 1, 1, 1, 1, 1, 1] 80
          [13, 10])) :=
  ⟨⟨by decide,
    (trojan_unwrap_fragmentation_amended ⟨List.replicate 56 97⟩ (by decide)).1
      4 [1, 2] [] (by decide)⟩,
   ⟨by decide,
    (trojan_unwrap_fragmentation_amended ⟨List.replicate 56 97⟩ (by decide)).2.1
      [9, 9] [9, 9, 0, 80, 13, 10] (by decide)⟩,
   ⟨by decide,
    (trojan_unwrap_fragmentation_amended ⟨List.replicate 56 97⟩ (by decide)).2.2
      [1, 1, 1, 1, 1, 1, 1, 1, 1, 1] [1, 1, 1, 1, 1, 1, 0, 80, 13, 10]
      (by decide)⟩⟩

/-- C7 counterexample: a 60-byte head whose delimiter bytes at offsets
56-57 are 0x00 0x00 instead of CRLF, with a matching secret and address
type 0x01, is decoded successfully rather than rejected. -/
theorem trojan_unwrap_crlf_counterexample :
    Trojan.Unwrap ⟨List.replicate 56 97⟩
        [List.replicate 56 97 ++ [0, 0, 1, 1] ++ [9, 9, 9, 9, 0, 80, 13, 10]] =
      some (.ipv4Addr [9, 9, 9, 9] 80 [13, 10]) := by decide

/-- C7 amended: Unwrap never inspects the delimiter bytes at offsets 56-57:
with a matching secret, the result is identical to a frame carrying a
proper CRLF there, whatever the two bytes are. -/
theorem trojan_unwrap_crlf_ignored (t : Trojan) (h56 : t.headPasswd.length = 56)
    (x y cmd atyp : Nat) (tail : Bytes) (chunks : Stream) :
    Trojan.Unwrap t ((t.headPasswd ++ [x, y, cmd, atyp] ++ tail) :: chunks) =
      Trojan.Unwrap t ((t.headPasswd ++ [13, 10, cmd, atyp] ++ tail) :: chunks) := by
  rcases tail with _ | ⟨b, bs⟩
  · simp only [List.append_nil]
    rw [unwrap_head_chunk t h56 x y cmd atyp, unwrap_head_chunk t h56 13 10 cmd atyp]
  · rw [unwrap_head t h56 x y cmd atyp _ (by simp) chunks,
      unwrap_head t h56 13 10 cmd atyp _ (by simp) chunks]

/-- Witness for C7 amended: zeroed delimiter bytes decode like CRLF. -/
theorem trojan_unwrap_crlf_ignored_witness :
    (⟨List.replicate 56 97⟩ : Trojan).headPasswd.length = 56 ∧
      Trojan.Unwrap ⟨List.replicate 56 97⟩
          [List.replicate 56 97 ++ [0, 0, 1, 1] ++ [9, 9, 9, 9, 0, 80, 13, 10]] =
        Trojan.Unwrap ⟨List.replicate 56 97⟩
          [List.replicate 56 97 ++ [13, 10, 1, 1] ++ [9, 9, 9, 9, 0, 80, 13, 10]] :=
  ⟨by decide, trojan_unwrap_crlf_ignored ⟨List.replicate 56 97⟩ (by decide)
    0 0 1 1 [9, 9, 9, 9, 0, 80, 13, 10] []⟩

/-- C8: the ProxyDialFn returned by GenProxyDial returns an error without
dialing whenever the host is empty or the port is zero; when Wrap fails on
the freshly dialed connection it closes that connection before propagating
the error; and a connection is returned only when Wrap succeeded, so no
open connection escapes on any failure path. -/
theorem genProxyDial_failure_paths (env : DialEnv) (netw host : Bytes)
    (port : Nat) :
    ((host = [] ∨ port = 0) →
      (proxyDialFn env netw host port).dialed = false ∧
      (proxyDialFn env netw host port).result = none) ∧
    (∀ conn, ¬(host = [] ∨ port = 0) → env.dialFn host port = some conn →
      env.wrapOk conn = false →
      (proxyDialFn env netw host port).closed = [conn] ∧
      (proxyDialFn env netw host port).result = none) ∧
    (∀ conn, (proxyDialFn env netw host port).result = some conn →
      env.dialFn host port = some conn ∧ env.wrapOk conn = true) := by
  refine ⟨?_, ?_, ?_⟩
  · intro h
    unfold proxyDialFn
    rw [if_pos h]
    exact ⟨rfl, rfl⟩
  · intro conn hvalid hdial hwrap
    unfold proxyDialFn
    rw [if_neg hvalid, hdial]
    simp [hwrap]
  · intro conn h
    unfold proxyDialFn at h
    by_cases hv : host = [] ∨ port = 0
    · rw [if_pos hv] at h
      exact absurd h (by simp)
    · rw [if_neg hv] at h
      cases hd : env.dialFn host port with
      | none => simp [hd] at h
      | some c =>
        by_cases hw : env.wrapOk c = true
        · simp [hd, hw] at h
          obtain rfl := h
          exact ⟨rfl, hw⟩
        · simp [hd, hw] at h

/-- Witness for C8: an empty host is rejected before dialing, and a failing
Wrap closes the dialed connection. -/
theorem genProxyDial_failure_paths_witness :
    ((proxyDialFn ⟨fun _ _ => some 7, fun _ => false⟩ (strBytes "tcp") [] 80).dialed
        = false) ∧
    ((proxyDialFn ⟨fun _ _ => some 7, fun _ => false⟩ (strBytes "tcp")
        (strBytes "example.com") 80).closed = [7]) :=
  ⟨((genProxyDial_failure_paths ⟨fun _ _ => some 7, fun _ => false⟩
      (strBytes "tcp") [] 80).1 (Or.inl rfl)).1,
   ((genProxyDial_failure_paths ⟨fun _ _ => some 7, fun _ => false⟩
      (strBytes "tcp") (strBytes "example.com") 80).2.1 7 (by decide) rfl rfl).1⟩

/-- C9: Unwrap never inspects the command byte at offset 58: with a
matching secret the decoded result is identical for every command byte
value, and for a recognized address type the decoding succeeds whatever
the command byte, CONNECT or not. -/
theorem trojan_unwrap_cmd_ignored (t : Trojan) (h56 : t.headPasswd.length = 56) :
    (∀ (x y cmd cmd' atyp : Nat) (tail : Bytes) (chunks : Stream),
      Trojan.Unwrap t ((t.headPasswd ++ [x, y, cmd, atyp] ++ tail) :: chunks) =
        Trojan.Unwrap t ((t.headPasswd ++ [x, y, cmd', atyp] ++ tail) :: chunks)) ∧
    (∀ (cmd : Nat) (tail : Bytes), tail.length = 8 →
      Trojan.Unwrap t ((t.headPasswd ++ [13, 10, cmd, 1] ++ tail) :: []) =
        some (.ipv4Addr (tail.take 4) (be16 (tail.getD 4 0) (tail.getD 5 0))
          (tail.drop 6))) := by
  constructor
  · intro x y cmd cmd' atyp tail chunks
    rcases tail with _ | ⟨b, bs⟩
    · simp only [List.append_nil]
      rw [unwrap_head_chunk t h56 x y cmd atyp, unwrap_head_chunk t h56 x y cmd' atyp]
    · rw [unwrap_head t h56 x y cmd atyp _ (by simp) chunks,
        unwrap_head t h56 x y cmd' atyp _ (by simp) chunks]
  · intro cmd tail h8
    rw [unwrap_head t h56 13 10 cmd 1 _
        (by intro hemp; rw [hemp] at h8; simp at h8) [],
      unwrapBody_v4 _ h8]

/-- Witness for C9: command byte 200 decodes like CONNECT. -/
theorem trojan_unwrap_cmd_ignored_witness :
    (⟨List.replicate 56 97⟩ : Trojan).headPasswd.length = 56 ∧
    ([9, 9, 9, 9, 0, 80, 13, 10] : Bytes).length = 8 ∧
    Trojan.Unwrap ⟨List.replicate 56 97⟩
        [List.replicate 56 97 ++ [13, 10, 200, 1] ++ [9, 9, 9, 9, 0, 80, 13, 10]] =
      some (.ipv4Addr [9, 9, 9, 9] 80 [13, 10]) :=
  ⟨by decide, by decide,
    (trojan_unwrap_cmd_ignored ⟨List.replicate 56 97⟩ (by decide)).2 200
      [9, 9, 9, 9, 0, 80, 13, 10] (by decide)⟩

/-- C10: the HTTP front-end always passes the literal port 80 and the
verbatim Host value of the parsed request to ProxyDial — for a request
whose Host header carries an explicit port, such as example.com:8080, the
whole host:port string is the host argument and the port argument is still
80. -/
theorem serveHTTP_dial_args (raw h : Bytes) :
    (readRequestHost raw = some h →
      serveHTTPDial raw = some (strBytes "tcp", h, 80)) ∧
    serveHTTPDial (strBytes "GET / HTTP/1.1\r\nHost: example.com:8080\r\n\r\n") =
      some (strBytes "tcp", strBytes "example.com:8080", 80) := by
  constructor
  · intro hh
    unfold serveHTTPDial
    rw [hh]
  · decide

/-- Witness for C10 at the example request with an explicit port. -/
theorem serveHTTP_dial_args_witness :
    readRequestHost (strBytes "GET / HTTP/1.1\r\nHost: example.com:8080\r\n\r\n") =
        some (strBytes "example.com:8080") ∧
      serveHTTPDial (strBytes "GET / HTTP/1.1\r\nHost: example.com:8080\r\n\r\n") =
        some (strBytes "tcp", strBytes "example.com:8080", 80) :=
  ⟨by decide,
    (serveHTTP_dial_args (strBytes "GET / HTTP/1.1\r\nHost: example.com:8080\r\n\r\n")
      (strBytes "example.com:8080")).1 (by decide)⟩

end Sower
